import Mathlib

/-!
Verification of the cache manager, environment/fallback configuration,
health-check aggregation and logger of the Adwonder CRM codebase,
as a shallow embedding in Lean 4.

Time is modelled as a natural number of milliseconds (the value of
Date.now at each call); every function that reads the clock takes it as
an explicit parameter.  The JavaScript Map backing the cache is modelled
as an association list in insertion order with unique keys, exactly the
iteration/update discipline of Map.set, Map.get, Map.delete.
-/

/-- The union type of cache keys from cacheManager.ts. -/
inductive CacheKey where
  | dashboard
  | clients
  | deals
  | activities
  | notifications
deriving DecidableEq, Repr

/-- A stored cache entry.  In the source, `timestamp` holds the expiry
instant (Date.now() + ttl is stored at set time). -/
structure CacheEntry (α : Type) where
  data : α
  timestamp : Nat
  dependencies : List CacheKey
deriving DecidableEq, Repr

/-- Map.get: find the entry stored under a key. -/
def mapGet {α : Type} (key : CacheKey) : List (CacheKey × CacheEntry α) → Option (CacheEntry α)
  | [] => none
  | (k, e) :: rest => if k = key then some e else mapGet key rest

/-- Map.set: replace in place if the key is present, else append. -/
def mapSet {α : Type} (key : CacheKey) (entry : CacheEntry α) :
    List (CacheKey × CacheEntry α) → List (CacheKey × CacheEntry α)
  | [] => [(key, entry)]
  | (k, e) :: rest => if k = key then (key, entry) :: rest else (k, e) :: mapSet key entry rest

/-- Map.delete: remove the entry stored under a key. -/
def mapDelete {α : Type} (key : CacheKey) :
    List (CacheKey × CacheEntry α) → List (CacheKey × CacheEntry α)
  | [] => []
  | (k, e) :: rest => if k = key then rest else (k, e) :: mapDelete key rest

/-- The CacheManager class state: its private Map. -/
structure CacheManager (α : Type) where
  cache : List (CacheKey × CacheEntry α)
deriving DecidableEq, Repr

namespace CacheManager

/-- A fresh CacheManager (new Map()). -/
def empty (α : Type) : CacheManager α := ⟨[]⟩

/-- A JavaScript Map never stores two entries under the same key. -/
def WF {α : Type} (m : CacheManager α) : Prop := (m.cache.map Prod.fst).Nodup

/-- DEFAULT_TTL = 5 * 60 * 1000. -/
def DEFAULT_TTL : Nat := 5 * 60 * 1000

/-- CacheManager.set: store data with its dependencies; the stored
timestamp is Date.now() + ttl. -/
def set {α : Type} (m : CacheManager α) (key : CacheKey) (data : α)
    (dependencies : List CacheKey) (ttl now : Nat) : CacheManager α :=
  ⟨mapSet key ⟨data, now + ttl, dependencies⟩ m.cache⟩

/-- CacheManager.get: return the payload if present and unexpired;
an expired entry is deleted and absent is returned.  The pair returned
is (result, state after the call). -/
def get {α : Type} (m : CacheManager α) (key : CacheKey) (now : Nat) :
    Option α × CacheManager α :=
  match mapGet key m.cache with
  | none => (none, m)
  | some entry =>
      if now > entry.timestamp then (none, ⟨mapDelete key m.cache⟩)
      else (some entry.data, m)

/-- CacheManager.invalidate: delete the key itself, then in one pass
delete every remaining entry whose dependencies include the key. -/
def invalidate {α : Type} (m : CacheManager α) (key : CacheKey) : CacheManager α :=
  ⟨(mapDelete key m.cache).filter (fun p => !(p.2.dependencies.contains key))⟩

/-- CacheManager.invalidateAll: clear the map. -/
def invalidateAll {α : Type} (_ : CacheManager α) : CacheManager α := ⟨[]⟩

/-- CacheManager.has: present and now ≤ expiry. -/
def has {α : Type} (m : CacheManager α) (key : CacheKey) (now : Nat) : Bool :=
  match mapGet key m.cache with
  | none => false
  | some entry => decide (now ≤ entry.timestamp)

/-- The record returned by CacheManager.getStats. -/
structure Stats where
  size : Nat
  keys : List CacheKey
deriving DecidableEq, Repr

/-- CacheManager.getStats: current map size and key list, with no
expiry filtering. -/
def getStats {α : Type} (m : CacheManager α) : Stats :=
  ⟨m.cache.length, m.cache.map Prod.fst⟩

/-- CacheManager.cleanup: drop every entry with now > expiry. -/
def cleanup {α : Type} (m : CacheManager α) (now : Nat) : CacheManager α :=
  ⟨m.cache.filter (fun p => !(decide (now > p.2.timestamp)))⟩

end CacheManager

/-- Looking up the key just set yields the new entry. -/
theorem mapGet_mapSet_self {α : Type} (key : CacheKey) (e : CacheEntry α)
    (c : List (CacheKey × CacheEntry α)) : mapGet key (mapSet key e c) = some e := by
  induction c with
  | nil => simp [mapSet, mapGet]
  | cons p rest ih =>
      obtain ⟨k, e'⟩ := p
      by_cases h : k = key
      · simp [mapSet, mapGet, h]
      · simp [mapSet, mapGet, h, ih]

/-- Setting one key leaves lookups of other keys unchanged. -/
theorem mapGet_mapSet_ne {α : Type} (key key' : CacheKey) (e : CacheEntry α)
    (c : List (CacheKey × CacheEntry α)) (hne : key ≠ key') :
    mapGet key' (mapSet key e c) = mapGet key' c := by
  induction c with
  | nil => simp [mapSet, mapGet, hne]
  | cons p rest ih =>
      obtain ⟨k, e'⟩ := p
      by_cases h : k = key
      · subst h
        simp [mapSet, mapGet, hne]
      · simp [mapSet, mapGet, h, ih]

/-- A key absent from the key column is absent from the map. -/
theorem mapGet_eq_none_of_not_mem {α : Type} (key : CacheKey)
    (c : List (CacheKey × CacheEntry α)) (h : key ∉ c.map Prod.fst) :
    mapGet key c = none := by
  induction c with
  | nil => simp [mapGet]
  | cons p rest ih =>
      obtain ⟨k, e⟩ := p
      simp only [List.map_cons, List.mem_cons] at h
      push_neg at h
      have hk : k ≠ key := fun hkk => h.1 hkk.symm
      simp [mapGet, hk, ih h.2]

/-- Deleting an absent key is a no-op. -/
theorem mapDelete_of_none {α : Type} (key : CacheKey)
    (c : List (CacheKey × CacheEntry α)) (h : mapGet key c = none) :
    mapDelete key c = c := by
  induction c with
  | nil => rfl
  | cons p rest ih =>
      obtain ⟨k, e⟩ := p
      by_cases hk : k = key
      · simp [mapGet, hk] at h
      · simp only [mapGet, hk, if_false, if_neg hk] at h ⊢
        simp [mapDelete, hk, ih h]

/-- The keys of a map after set are the old keys, with the new key added
when it was absent. -/
theorem mem_keys_mapSet {α : Type} (x key : CacheKey) (e : CacheEntry α)
    (c : List (CacheKey × CacheEntry α)) :
    x ∈ (mapSet key e c).map Prod.fst ↔ x ∈ c.map Prod.fst ∨ x = key := by
  induction c with
  | nil => simp [mapSet]
  | cons p rest ih =>
      obtain ⟨k, e'⟩ := p
      by_cases hk : k = key
      · subst hk
        simp [mapSet]
        tauto
      · simp [mapSet, hk, ih]
        tauto

/-- Map.set preserves uniqueness of keys. -/
theorem nodup_keys_mapSet {α : Type} (key : CacheKey) (e : CacheEntry α)
    (c : List (CacheKey × CacheEntry α)) (h : (c.map Prod.fst).Nodup) :
    ((mapSet key e c).map Prod.fst).Nodup := by
  induction c with
  | nil => simp [mapSet]
  | cons p rest ih =>
      obtain ⟨k, e'⟩ := p
      simp only [List.map_cons, List.nodup_cons] at h
      by_cases hk : k = key
      · subst hk
        simp [mapSet, h.1, h.2]
      · simp only [mapSet, if_neg hk, List.map_cons, List.nodup_cons]
        refine ⟨?_, ih h.2⟩
        rw [mem_keys_mapSet]
        push_neg
        exact ⟨h.1, hk⟩

/-- With unique keys, the deleted key is gone from the map. -/
theorem mapGet_mapDelete_self {α : Type} (key : CacheKey)
    (c : List (CacheKey × CacheEntry α)) (h : (c.map Prod.fst).Nodup) :
    mapGet key (mapDelete key c) = none := by
  induction c with
  | nil => rfl
  | cons p rest ih =>
      obtain ⟨k, e⟩ := p
      simp only [List.map_cons, List.nodup_cons] at h
      by_cases hk : k = key
      · subst hk
        simp only [mapDelete, if_pos rfl]
        exact mapGet_eq_none_of_not_mem k rest h.1
      · simp [mapDelete, mapGet, hk, ih h.2]

/-- Claim C3: cache TTL round trip.  For any well-formed cache state,
set(k, v, [], ttl) followed by get(k) at the same instant returns v;
a get strictly past the expiry instant returns absent and deletes the
entry, so a subsequent has(k) is false. -/
theorem cache_ttl_round_trip {α : Type} (m : CacheManager α) (k : CacheKey)
    (v : α) (ttl t0 t1 : Nat) (hwf : m.WF) (hpos : 0 < ttl)
    (hlate : t0 + ttl < t1) :
    let m1 := m.set k v [] ttl t0
    ((m1.get k t0).1 = some v) ∧ ((m1.get k t1).1 = none) ∧
      (((m1.get k t1).2.has k t1) = false) := by
  intro m1
  have hget : mapGet k m1.cache = some ⟨v, t0 + ttl, []⟩ :=
    mapGet_mapSet_self k _ m.cache
  have hnodup : (m1.cache.map Prod.fst).Nodup :=
    nodup_keys_mapSet k _ m.cache hwf
  have h0 : ¬ (t0 > t0 + ttl) := by omega
  refine ⟨?_, ?_, ?_⟩
  · simp [CacheManager.get, hget, h0]
  · simp [CacheManager.get, hget, hlate]
  · simp only [CacheManager.get, hget, if_pos hlate]
    simp [CacheManager.has, mapGet_mapDelete_self k m1.cache hnodup]

/-- Witness for cache_ttl_round_trip at a concrete state and times. -/
theorem cache_ttl_round_trip_witness :
    let m1 := (CacheManager.empty Nat).set .clients 7 [] 100 0
    ((m1.get .clients 0).1 = some 7) ∧ ((m1.get .clients 101).1 = none) ∧
      (((m1.get .clients 101).2.has .clients 101) = false) :=
  cache_ttl_round_trip (CacheManager.empty Nat) CacheKey.clients 7 100 0 101
    (by simp [CacheManager.WF, CacheManager.empty]) (by omega) (by omega)

/-- Claim C10: invalidating an absent key still cascades.  When no entry
is stored under k, invalidate(k) leaves exactly the entries whose
dependencies do not include k: every dependent entry is removed and
every other entry is kept unchanged. -/
theorem invalidate_absent_key_cascades {α : Type} (m : CacheManager α)
    (k : CacheKey) (habs : mapGet k m.cache = none) :
    (m.invalidate k).cache = m.cache.filter (fun p => !(p.2.dependencies.contains k)) ∧
      (∀ p ∈ m.cache, p.2.dependencies.contains k = false → p ∈ (m.invalidate k).cache) ∧
      (∀ p ∈ (m.invalidate k).cache, p ∈ m.cache ∧ p.2.dependencies.contains k = false) := by
  have hfix : (m.invalidate k).cache =
      m.cache.filter (fun p => !(p.2.dependencies.contains k)) := by
    simp [CacheManager.invalidate, mapDelete_of_none k m.cache habs]
  refine ⟨hfix, ?_, ?_⟩
  · intro p hp hdep
    rw [hfix, List.mem_filter]
    exact ⟨hp, by simpa using hdep⟩
  · intro p hp
    rw [hfix, List.mem_filter] at hp
    refine ⟨hp.1, ?_⟩
    have := hp.2
    simpa using this

/-- Witness for invalidate_absent_key_cascades: the dashboard entry
depends on clients, no entry is stored under clients, and invalidating
clients removes dashboard while keeping deals. -/
theorem invalidate_absent_key_cascades_witness :
    let m : CacheManager Nat :=
      ⟨[(.dashboard, ⟨1, 100, [.clients]⟩), (.deals, ⟨2, 100, []⟩)]⟩
    (m.invalidate .clients).cache =
        m.cache.filter (fun p => !(p.2.dependencies.contains CacheKey.clients)) ∧
      (∀ p ∈ m.cache, p.2.dependencies.contains CacheKey.clients = false →
        p ∈ (m.invalidate .clients).cache) ∧
      (∀ p ∈ (m.invalidate .clients).cache,
        p ∈ m.cache ∧ p.2.dependencies.contains CacheKey.clients = false) :=
  invalidate_absent_key_cascades
    ⟨[(.dashboard, ⟨1, 100, [.clients]⟩), (.deals, ⟨2, 100, []⟩)]⟩
    CacheKey.clients (by decide)

/-- Counterexample to claim C2 as stated: getStats performs no expiry
filtering, so a key whose expiresAt (here 100) has passed (here at time
6000) still appears in getStats().keys and is still counted in size. -/
theorem getStats_reports_expired_entry :
    let m := (CacheManager.empty Nat).set .clients 0 [] 100 0
    100 < 6000 ∧ m.getStats.keys.contains CacheKey.clients = true ∧
      m.getStats.size = 1 := by
  decide

/-- Claim C2 amended: an expired entry persists in getStats until it is
evicted (by a get on its key, cleanup, invalidate or invalidateAll);
after cleanup(now), every key reported by getStats belongs to an entry
with now ≤ expiresAt. -/
theorem getStats_after_cleanup_live {α : Type} (m : CacheManager α)
    (now : Nat) (k : CacheKey) (hk : k ∈ ((m.cleanup now).getStats).keys) :
    ∃ p ∈ (m.cleanup now).cache, p.1 = k ∧ now ≤ p.2.timestamp := by
  simp only [CacheManager.getStats, CacheManager.cleanup, List.mem_map] at hk
  obtain ⟨p, hp, hpk⟩ := hk
  rw [List.mem_filter] at hp
  refine ⟨p, ?_, hpk, ?_⟩
  · simp [CacheManager.cleanup, List.mem_filter]
    exact ⟨hp.1, by simpa using hp.2⟩
  · have := hp.2
    simp at this
    omega

/-- Witness for getStats_after_cleanup_live on a concrete state. -/
theorem getStats_after_cleanup_live_witness :
    ∃ p ∈ (((CacheManager.empty Nat).set .clients 7 [] 100 0).cleanup 50).cache,
      p.1 = CacheKey.clients ∧ 50 ≤ p.2.timestamp :=
  getStats_after_cleanup_live ((CacheManager.empty Nat).set .clients 7 [] 100 0)
    50 CacheKey.clients (by decide)

/-- Claim C1: dependency invalidation is exactly one level deep.  After
set(A, a, []), set(B, b, [A]), set(C, c, [B]) at time t0 with a common
TTL still unexpired at read time t1, invalidate(A) removes A and B, yet
C is still retrievable. -/
theorem invalidate_one_level {α : Type} (A B C : CacheKey) (a b c : α)
    (t0 ttl t1 : Nat) (hAB : A ≠ B) (hAC : A ≠ C) (hBC : B ≠ C)
    (hlive : t1 ≤ t0 + ttl) :
    let m := (((CacheManager.empty α).set A a [] ttl t0).set B b [A] ttl t0).set C c [B] ttl t0
    let m' := m.invalidate A
    (m'.get A t1).1 = none ∧ (m'.get B t1).1 = none ∧ (m'.get C t1).1 = some c := by
  intro m m'
  have hBA : B ≠ A := fun h => hAB h.symm
  have hCA : C ≠ A := fun h => hAC h.symm
  have hCB : C ≠ B := fun h => hBC h.symm
  have hm : m.cache =
      [(A, ⟨a, t0 + ttl, []⟩), (B, ⟨b, t0 + ttl, [A]⟩), (C, ⟨c, t0 + ttl, [B]⟩)] := by
    simp [m, CacheManager.empty, CacheManager.set, mapSet, hAB, hAC, hBC, hBA, hCA, hCB]
  have hm' : m'.cache = [(C, ⟨c, t0 + ttl, [B]⟩)] := by
    simp [m', CacheManager.invalidate, hm, mapDelete, hBA, hCA, hAB, hCB,
      List.filter, List.contains]
  have hnot : ¬ (t1 > t0 + ttl) := by omega
  refine ⟨?_, ?_, ?_⟩
  · simp [CacheManager.get, hm', mapGet, hCA]
  · simp [CacheManager.get, hm', mapGet, hCB]
  · simp [CacheManager.get, hm', mapGet, hnot]

/-- Witness for invalidate_one_level at concrete keys, values and times. -/
theorem invalidate_one_level_witness :
    let m := (((CacheManager.empty Nat).set .clients 1 [] 1000 0).set .deals 2 [.clients] 1000 0).set
      .activities 3 [.deals] 1000 0
    let m' := m.invalidate .clients
    (m'.get .clients 500).1 = none ∧ (m'.get .deals 500).1 = none ∧
      (m'.get .activities 500).1 = some 3 :=
  invalidate_one_level CacheKey.clients CacheKey.deals CacheKey.activities 1 2 3 0 1000 500
    (by decide) (by decide) (by decide) (by omega)

/-!
Environment configuration (environment.ts).  The module-level mutable
variables supabaseConnectionStatus and lastConnectionCheck form an
explicit state record; the network probe (the fetch in
isSupabaseAvailable) is modelled by a boolean oracle probeOk giving the
outcome a live probe would have (response.ok, with a thrown fetch error
also yielding failed).
-/

/-- The union type of supabaseConnectionStatus. -/
inductive ConnStatus where
  | unknown
  | connected
  | failed
deriving DecidableEq, Repr

/-- The mutable module state of environment.ts. -/
structure EnvState where
  supabaseConnectionStatus : ConnStatus
  lastConnectionCheck : Nat
deriving DecidableEq, Repr

/-- CONNECTION_CHECK_INTERVAL = 30000 ms. -/
def CONNECTION_CHECK_INTERVAL : Nat := 30000

/-- The EnvironmentConfig record (defaultConfig). -/
structure EnvironmentConfig where
  supabaseUrl : String
  supabaseAnonKey : String
  isDevelopment : Bool
  isProduction : Bool
  enableMockData : Bool
deriving DecidableEq, Repr

/-- isSupabaseConfigured: both the URL and the anon key are non-empty
(JavaScript string truthiness under Boolean). -/
def isSupabaseConfigured (c : EnvironmentConfig) : Bool :=
  !(c.supabaseUrl == "") && !(c.supabaseAnonKey == "")

/-- Result of one isSupabaseAvailable call: the returned boolean,
whether a live probe (fetch) was issued, and the state afterwards. -/
structure AvailResult where
  result : Bool
  didProbe : Bool
  state : EnvState
deriving DecidableEq, Repr

/-- isSupabaseAvailable: cached fast path when the last check is within
the cooldown window and the status is not unknown; otherwise an
unconfigured service is marked failed without probing, and a configured
one is probed live, recording the outcome and the check time. -/
def isSupabaseAvailable (c : EnvironmentConfig) (probeOk : Bool) (now : Nat)
    (s : EnvState) : AvailResult :=
  if now - s.lastConnectionCheck < CONNECTION_CHECK_INTERVAL ∧
      s.supabaseConnectionStatus ≠ ConnStatus.unknown then
    ⟨s.supabaseConnectionStatus == ConnStatus.connected, false, s⟩
  else if !(isSupabaseConfigured c) then
    ⟨false, false, ⟨ConnStatus.failed, now⟩⟩
  else
    let st := if probeOk then ConnStatus.connected else ConnStatus.failed
    ⟨st == ConnStatus.connected, true, ⟨st, now⟩⟩

/-- shouldUseMockData: true when mock data is force-enabled; in
development, the negation of availability; in production posture,
always false. -/
def shouldUseMockData (c : EnvironmentConfig) (probeOk : Bool) (now : Nat)
    (s : EnvState) : Bool × EnvState :=
  if c.enableMockData then (true, s)
  else if c.isDevelopment then
    let r := isSupabaseAvailable c probeOk now s
    (!r.result, r.state)
  else (false, s)

/-- enableMockData(enable): flips the flag and resets the connection
state to force a fresh check. -/
def enableMockData (c : EnvironmentConfig) (enable : Bool) :
    EnvironmentConfig × EnvState :=
  ({ c with enableMockData := enable }, ⟨ConnStatus.unknown, 0⟩)

/-- resetConnectionStatus. -/
def resetConnectionStatus : EnvState := ⟨ConnStatus.unknown, 0⟩

/-- A live probe always records a status other than unknown. -/
theorem probe_status_not_unknown (c : EnvironmentConfig) (probeOk : Bool)
    (now : Nat) (s : EnvState)
    (h : (isSupabaseAvailable c probeOk now s).didProbe = true) :
    (isSupabaseAvailable c probeOk now s).state.supabaseConnectionStatus ≠
        ConnStatus.unknown ∧
      (isSupabaseAvailable c probeOk now s).state.lastConnectionCheck = now := by
  unfold isSupabaseAvailable at h ⊢
  by_cases h1 : now - s.lastConnectionCheck < CONNECTION_CHECK_INTERVAL ∧
      s.supabaseConnectionStatus ≠ ConnStatus.unknown
  · rw [if_pos h1] at h
    simp at h
  · rw [if_neg h1] at h ⊢
    by_cases h2 : isSupabaseConfigured c = true
    · simp only [h2, Bool.not_true, Bool.false_eq_true, if_false] at h ⊢
      cases probeOk <;> simp
    · simp only [Bool.not_eq_true] at h2
      simp [h2] at h

/-- Claim C4: availability-check cooldown.  (1) Two sequential calls
within the cooldown window issue at most one live probe.  (2) A call on
a state whose status is not unknown and whose last check is within the
window returns the cached state without probing and without changing
state.  (3) Once the window has elapsed, a call on a configured service
issues a fresh live probe regardless of the cached status. -/
theorem availability_cooldown (c : EnvironmentConfig) (p1 p2 : Bool)
    (s : EnvState) (n1 n2 : Nat) (h12 : n1 ≤ n2) :
    (n2 - n1 < CONNECTION_CHECK_INTERVAL →
      ¬((isSupabaseAvailable c p1 n1 s).didProbe = true ∧
        (isSupabaseAvailable c p2 n2 (isSupabaseAvailable c p1 n1 s).state).didProbe = true)) ∧
    (s.supabaseConnectionStatus ≠ ConnStatus.unknown →
      n2 - s.lastConnectionCheck < CONNECTION_CHECK_INTERVAL →
      isSupabaseAvailable c p2 n2 s =
        ⟨s.supabaseConnectionStatus == ConnStatus.connected, false, s⟩) ∧
    (isSupabaseConfigured c = true →
      CONNECTION_CHECK_INTERVAL ≤ n2 - s.lastConnectionCheck →
      (isSupabaseAvailable c p2 n2 s).didProbe = true) := by
  refine ⟨?_, ?_, ?_⟩
  · intro hwin ⟨hp1, hp2⟩
    obtain ⟨hst, hlast⟩ := probe_status_not_unknown c p1 n1 s hp1
    rw [isSupabaseAvailable, if_pos ⟨by omega, hst⟩] at hp2
    simp at hp2
  · intro hst hwin
    rw [isSupabaseAvailable, if_pos ⟨hwin, hst⟩]
  · intro hcfg hwin
    have hfast : ¬ (n2 - s.lastConnectionCheck < CONNECTION_CHECK_INTERVAL ∧
        s.supabaseConnectionStatus ≠ ConnStatus.unknown) := by
      intro ⟨h, _⟩
      omega
    rw [isSupabaseAvailable, if_neg hfast]
    simp only [hcfg]
    cases p2 <;> simp

/-- Witness for availability_cooldown: a configured service, a failed
cached state checked 0 ms ago, and a second call 40000 ms later. -/
theorem availability_cooldown_witness :
    let c : EnvironmentConfig := ⟨"u", "k", true, false, false⟩
    let s : EnvState := ⟨ConnStatus.failed, 0⟩
    (1000 - 0 < CONNECTION_CHECK_INTERVAL →
      ¬((isSupabaseAvailable c true 0 s).didProbe = true ∧
        (isSupabaseAvailable c true 1000 (isSupabaseAvailable c true 0 s).state).didProbe = true)) ∧
    (s.supabaseConnectionStatus ≠ ConnStatus.unknown →
      1000 - s.lastConnectionCheck < CONNECTION_CHECK_INTERVAL →
      isSupabaseAvailable c true 1000 s =
        ⟨s.supabaseConnectionStatus == ConnStatus.connected, false, s⟩) ∧
    (isSupabaseConfigured c = true →
      CONNECTION_CHECK_INTERVAL ≤ 1000 - s.lastConnectionCheck →
      (isSupabaseAvailable c true 1000 s).didProbe = true) :=
  availability_cooldown ⟨"u", "k", true, false, false⟩ true true
    ⟨ConnStatus.failed, 0⟩ 0 1000 (by omega)

/-- Claim C5: fallback decision in production posture.  If the
force-fallback flag is off and the development posture is off,
shouldUseMockData returns false for every connection state and probe
outcome; if the flag is set, it returns true unconditionally. -/
theorem mock_data_production_posture (c : EnvironmentConfig) (probeOk : Bool)
    (now : Nat) (s : EnvState) :
    (c.enableMockData = false → c.isDevelopment = false →
      (shouldUseMockData c probeOk now s).1 = false) ∧
    (c.enableMockData = true → (shouldUseMockData c probeOk now s).1 = true) := by
  constructor
  · intro hmock hdev
    simp [shouldUseMockData, hmock, hdev]
  · intro hmock
    simp [shouldUseMockData, hmock]

/-- Witness for mock_data_production_posture: production posture with an
unreachable service still returns false. -/
theorem mock_data_production_posture_witness :
    (shouldUseMockData ⟨"u", "k", false, true, false⟩ false 50000
      ⟨ConnStatus.failed, 40000⟩).1 = false :=
  (mock_data_production_posture ⟨"u", "k", false, true, false⟩ false 50000
    ⟨ConnStatus.failed, 40000⟩).1 rfl rfl

/-!
Health checks (healthCheck module).  The per-service probes
(checkSupabaseHealth) are network effects; checkSystemHealth is modelled
over the list of per-service status records those probes return, with
the cached last result passed explicitly.  The concurrency guard
healthCheckInProgress is not modelled.
-/

/-- The three health levels. -/
inductive HealthLevel where
  | healthy
  | degraded
  | unhealthy
deriving DecidableEq, Repr

/-- The HealthStatus record of one service. -/
structure HealthStatus where
  service : String
  status : HealthLevel
  lastCheck : Nat
  error : Option String
  responseTime : Option Nat
deriving DecidableEq, Repr

/-- The SystemHealth record. -/
structure SystemHealth where
  overall : HealthLevel
  services : List HealthStatus
  timestamp : Nat
deriving DecidableEq, Repr

/-- HEALTH_CHECK_CACHE_DURATION = 30000 ms. -/
def HEALTH_CHECK_CACHE_DURATION : Nat := 30000

/-- The overall-status derivation inside checkSystemHealth: start from
healthy, filter the unhealthy and the degraded services, and pick
unhealthy, then degraded, by non-emptiness of those filters. -/
def deriveOverall (services : List HealthStatus) : HealthLevel :=
  let unhealthyServices := services.filter (fun s => s.status == HealthLevel.unhealthy)
  let degradedServices := services.filter (fun s => s.status == HealthLevel.degraded)
  if unhealthyServices.length > 0 then HealthLevel.unhealthy
  else if degradedServices.length > 0 then HealthLevel.degraded
  else HealthLevel.healthy

/-- checkSystemHealth: return the cached result when it is recent and a
refresh is not forced; otherwise aggregate the freshly probed service
statuses. -/
def checkSystemHealth (lastHealthCheck : Option SystemHealth) (forceRefresh : Bool)
    (now : Nat) (services : List HealthStatus) : SystemHealth :=
  match lastHealthCheck with
  | some prev =>
      if !forceRefresh ∧ now - prev.timestamp < HEALTH_CHECK_CACHE_DURATION then prev
      else ⟨deriveOverall services, services, now⟩
  | none => ⟨deriveOverall services, services, now⟩

/-- Claim C6: overall health aggregation is worst-of.  For every list of
per-service status records, a fresh checkSystemHealth reports unhealthy
when any service is unhealthy, else degraded when any is degraded, else
healthy. -/
theorem overall_health_worst_of (forceRefresh : Bool) (now : Nat)
    (services : List HealthStatus) :
    (checkSystemHealth none forceRefresh now services).overall =
      (if services.any (fun s => s.status == HealthLevel.unhealthy) then HealthLevel.unhealthy
       else if services.any (fun s => s.status == HealthLevel.degraded) then HealthLevel.degraded
       else HealthLevel.healthy) := by
  show deriveOverall services = _
  unfold deriveOverall
  have hlen : ∀ p : HealthStatus → Bool,
      (0 < (services.filter p).length ↔ services.any p = true) := by
    intro p
    constructor
    · intro h
      obtain ⟨s, hs⟩ := List.exists_mem_of_length_pos h
      rw [List.mem_filter] at hs
      exact List.any_eq_true.mpr ⟨s, hs.1, hs.2⟩
    · intro h
      obtain ⟨s, hs, hps⟩ := List.any_eq_true.mp h
      apply List.length_pos.mpr
      intro hnil
      have hmem : s ∈ services.filter p := List.mem_filter.mpr ⟨hs, hps⟩
      rw [hnil] at hmem
      exact List.not_mem_nil s hmem
  by_cases hu : (services.any fun s => s.status == HealthLevel.unhealthy) = true
  · have h1 : 0 < (services.filter fun s => s.status == HealthLevel.unhealthy).length :=
      (hlen _).mpr hu
    simp [h1, hu]
  · have h1 : ¬ 0 < (services.filter fun s => s.status == HealthLevel.unhealthy).length :=
      fun h => hu ((hlen _).mp h)
    by_cases hd : (services.any fun s => s.status == HealthLevel.degraded) = true
    · have h2 : 0 < (services.filter fun s => s.status == HealthLevel.degraded).length :=
        (hlen _).mpr hd
      simp [h1, h2, hu, hd]
    · have h2 : ¬ 0 < (services.filter fun s => s.status == HealthLevel.degraded).length :=
        fun h => hd ((hlen _).mp h)
      simp [h1, h2, hu, hd]

/-!
Logger (logger.ts).  localStorage is modelled as the stored list of
entries (newest first); the console and the remote endpoint are modelled
by the fields of LogResult describing what one log call emits.  The
fetch to the remote endpoint is modelled by an explicit outcome
parameter of type Except String Unit; logToRemote being a total Lean
function returning only an optional console warning reflects that a
delivery failure is caught and never rethrown.  A browser environment
(window and localStorage present and functional) is assumed.
-/

/-- The LogLevel enum, DEBUG = 0 .. CRITICAL = 4. -/
inductive LogLevel where
  | debug
  | info
  | warn
  | error
  | critical
deriving DecidableEq, Repr

/-- The numeric value of the enum member. -/
def LogLevel.toNat : LogLevel → Nat
  | .debug => 0
  | .info => 1
  | .warn => 2
  | .error => 3
  | .critical => 4

/-- A LogEntry.  The generated id and the ISO timestamp are modelled by
the idSeed string and a Nat instant; userAgent, url, data and stack do
not affect the claimed properties and are omitted. -/
structure LogEntry where
  id : String
  timestamp : Nat
  level : LogLevel
  message : String
  context : Option String
deriving DecidableEq, Repr

/-- The LoggerConfig record. -/
structure LoggerConfig where
  level : LogLevel
  enableConsole : Bool
  enableStorage : Bool
  maxStorageEntries : Nat
  enableRemoteLogging : Bool
  remoteEndpoint : Option String
deriving DecidableEq, Repr

/-- Logger.shouldLog: level at or above the configured threshold. -/
def shouldLog (cfg : LoggerConfig) (level : LogLevel) : Bool :=
  decide (cfg.level.toNat ≤ level.toNat)

/-- Logger.createLogEntry. -/
def createLogEntry (level : LogLevel) (message : String) (context : Option String)
    (idSeed : String) (now : Nat) : LogEntry :=
  ⟨idSeed, now, level, message, context⟩

/-- Logger.logToStorage: prepend the new entry and truncate to
maxStorageEntries (newest first, oldest dropped). -/
def logToStorage (cfg : LoggerConfig) (entry : LogEntry)
    (storage : List LogEntry) : List LogEntry :=
  if cfg.enableStorage then (entry :: storage).take cfg.maxStorageEntries
  else storage

/-- Logger.logToRemote: no-op unless remote logging is enabled and an
endpoint is configured; a failed fetch is caught and turned into a
console warning, never rethrown (hence the total return type). -/
def logToRemote (cfg : LoggerConfig) (fetchResult : Except String Unit) :
    Option String :=
  if cfg.enableRemoteLogging && cfg.remoteEndpoint.isSome then
    match fetchResult with
    | Except.ok _ => none
    | Except.error e => some (String.append "Failed to send log to remote endpoint: " e)
  else none

/-- What one Logger.log call emits: the stored list afterwards, the
console entry if any, whether a remote fetch was issued, and the
console warning a failed remote delivery produced. -/
structure LogResult where
  storage : List LogEntry
  consoleOut : Option LogEntry
  remoteAttempted : Bool
  remoteWarning : Option String
deriving DecidableEq, Repr

namespace Logger

/-- Logger.log: no-op below the threshold; otherwise create the entry,
write it to console and storage, and only for level ≥ ERROR hand it to
logToRemote. -/
def log (cfg : LoggerConfig) (level : LogLevel) (message : String)
    (context : Option String) (idSeed : String) (now : Nat)
    (storage : List LogEntry) (fetchResult : Except String Unit) : LogResult :=
  if shouldLog cfg level then
    let entry := createLogEntry level message context idSeed now
    { storage := logToStorage cfg entry storage
      consoleOut := if cfg.enableConsole then some entry else none
      remoteAttempted :=
        if LogLevel.error.toNat ≤ level.toNat then
          cfg.enableRemoteLogging && cfg.remoteEndpoint.isSome
        else false
      remoteWarning :=
        if LogLevel.error.toNat ≤ level.toNat then logToRemote cfg fetchResult
        else none }
  else ⟨storage, none, false, none⟩

end Logger

/-- One call to a Logger method, with the ambient id seed and clock. -/
structure LogCall where
  level : LogLevel
  message : String
  context : Option String
  idSeed : String
  now : Nat
deriving DecidableEq, Repr

/-- The entry a call creates. -/
def entryOfCall (call : LogCall) : LogEntry :=
  createLogEntry call.level call.message call.context call.idSeed call.now

/-- Run a sequence of log calls against the stored list (remote
delivery outcomes do not touch storage, so they are fixed to ok). -/
def runCalls (cfg : LoggerConfig) (storage : List LogEntry) :
    List LogCall → List LogEntry
  | [] => storage
  | call :: calls =>
      runCalls cfg
        (Logger.log cfg call.level call.message call.context call.idSeed
          call.now storage (Except.ok ())).storage calls

/-- Truncating the tail first does not change a truncated append. -/
theorem take_append_take {γ : Type} (A B : List γ) (m : Nat) :
    (A ++ B.take m).take m = (A ++ B).take m := by
  rw [List.take_append_eq_append_take, List.take_append_eq_append_take,
    List.take_take]
  have hmin : min (m - A.length) m = m - A.length := by omega
  rw [hmin]

/-- Storage after a run: all created entries newest first on top of the
initial storage, truncated to the cap. -/
theorem runCalls_storage (cfg : LoggerConfig) (calls : List LogCall) :
    ∀ storage : List LogEntry, cfg.enableStorage = true →
    (∀ call ∈ calls, shouldLog cfg call.level = true) →
    storage.length ≤ cfg.maxStorageEntries →
    runCalls cfg storage calls =
      ((calls.map entryOfCall).reverse ++ storage).take cfg.maxStorageEntries := by
  induction calls with
  | nil =>
      intro storage _ _ hlen
      simp [runCalls, List.take_of_length_le hlen]
  | cons call calls ih =>
      intro storage hs hcalls hlen
      have hcall : shouldLog cfg call.level = true := hcalls call (by simp)
      have hstep : (Logger.log cfg call.level call.message call.context call.idSeed
          call.now storage (Except.ok ())).storage =
          (entryOfCall call :: storage).take cfg.maxStorageEntries := by
        simp [Logger.log, hcall, logToStorage, hs, entryOfCall]
      have hlen2 : ((entryOfCall call :: storage).take cfg.maxStorageEntries).length ≤
          cfg.maxStorageEntries := by
        rw [List.length_take]
        omega
      have htail : ∀ c ∈ calls, shouldLog cfg c.level = true :=
        fun c hc => hcalls c (by simp [hc])
      calc runCalls cfg storage (call :: calls)
      _ = runCalls cfg ((entryOfCall call :: storage).take cfg.maxStorageEntries) calls := by
        rw [runCalls, hstep]
      _ = ((calls.map entryOfCall).reverse ++
            (entryOfCall call :: storage).take cfg.maxStorageEntries).take
            cfg.maxStorageEntries := ih _ hs htail hlen2
      _ = ((calls.map entryOfCall).reverse ++
            (entryOfCall call :: storage)).take cfg.maxStorageEntries :=
        take_append_take _ _ _
      _ = (((call :: calls).map entryOfCall).reverse ++ storage).take
            cfg.maxStorageEntries := by
        simp

/-- Claim C7: logger bounded storage.  With storage enabled and every
call at or above the threshold, running the calls from empty storage
persists exactly the created entries newest first truncated at
maxStorageEntries; once more than maxStorageEntries calls were made,
exactly maxStorageEntries entries remain (the newest ones; the oldest
are the ones dropped). -/
theorem logger_bounded_storage (cfg : LoggerConfig) (calls : List LogCall)
    (hs : cfg.enableStorage = true)
    (hl : ∀ call ∈ calls, shouldLog cfg call.level = true) :
    runCalls cfg [] calls =
        (calls.map entryOfCall).reverse.take cfg.maxStorageEntries ∧
      (cfg.maxStorageEntries ≤ calls.length →
        (runCalls cfg [] calls).length = cfg.maxStorageEntries) := by
  have hmain := runCalls_storage cfg calls [] hs hl (by simp)
  rw [List.append_nil] at hmain
  refine ⟨hmain, ?_⟩
  intro hover
  rw [hmain, List.length_take, List.length_reverse, List.length_map]
  omega

/-- Witness for logger_bounded_storage: three WARN calls against a cap
of two leave exactly the two newest entries, newest first. -/
theorem logger_bounded_storage_witness :
    let cfg : LoggerConfig := ⟨.info, true, true, 2, false, none⟩
    let calls : List LogCall :=
      [⟨.warn, "a", none, "i1", 1⟩, ⟨.warn, "b", none, "i2", 2⟩,
        ⟨.warn, "c", none, "i3", 3⟩]
    runCalls cfg [] calls =
        (calls.map entryOfCall).reverse.take cfg.maxStorageEntries ∧
      (cfg.maxStorageEntries ≤ calls.length →
        (runCalls cfg [] calls).length = cfg.maxStorageEntries) :=
  logger_bounded_storage ⟨.info, true, true, 2, false, none⟩
    [⟨.warn, "a", none, "i1", 1⟩, ⟨.warn, "b", none, "i2", 2⟩,
      ⟨.warn, "c", none, "i3", 3⟩] rfl (by decide)

/-- Claim C8: logger level filter.  With console enabled: under a WARN
threshold, DEBUG and INFO calls emit nothing (storage, console and
remote all untouched) while WARN, ERROR and CRITICAL calls emit both a
stored entry (when storage is enabled) and a console entry; and in
general a call is a no-op exactly when its level is strictly below the
configured threshold. -/
theorem logger_level_filter (cfg : LoggerConfig) (lvl : LogLevel)
    (msg : String) (ctx : Option String) (idSeed : String) (now : Nat)
    (st : List LogEntry) (fr : Except String Unit)
    (hc : cfg.enableConsole = true) :
    (cfg.level = LogLevel.warn →
      ((lvl = LogLevel.debug ∨ lvl = LogLevel.info) →
        Logger.log cfg lvl msg ctx idSeed now st fr = ⟨st, none, false, none⟩) ∧
      ((lvl = LogLevel.warn ∨ lvl = LogLevel.error ∨ lvl = LogLevel.critical) →
        (cfg.enableStorage = true →
          (Logger.log cfg lvl msg ctx idSeed now st fr).storage =
            (createLogEntry lvl msg ctx idSeed now :: st).take cfg.maxStorageEntries) ∧
        (Logger.log cfg lvl msg ctx idSeed now st fr).consoleOut =
          some (createLogEntry lvl msg ctx idSeed now))) ∧
    (Logger.log cfg lvl msg ctx idSeed now st fr = ⟨st, none, false, none⟩ ↔
      lvl.toNat < cfg.level.toNat) := by
  refine ⟨?_, ?_⟩
  · intro hwarn
    constructor
    · intro hlow
      have hno : shouldLog cfg lvl = false := by
        rcases hlow with h | h <;> rw [shouldLog, hwarn, h] <;> rfl
      simp [Logger.log, hno]
    · intro hhigh
      have hyes : shouldLog cfg lvl = true := by
        rcases hhigh with h | h | h <;> rw [shouldLog, hwarn, h] <;> rfl
      constructor
      · intro hstore
        simp [Logger.log, hyes, logToStorage, hstore]
      · simp [Logger.log, hyes, hc]
  · by_cases hyes : shouldLog cfg lvl = true
    · constructor
      · intro heq
        have hcon : (Logger.log cfg lvl msg ctx idSeed now st fr).consoleOut =
            some (createLogEntry lvl msg ctx idSeed now) := by
          simp [Logger.log, hyes, hc]
        rw [heq] at hcon
        simp at hcon
      · intro hlt
        rw [shouldLog, decide_eq_true_iff] at hyes
        omega
    · have hno : shouldLog cfg lvl = false := by
        revert hyes
        cases shouldLog cfg lvl <;> simp
      constructor
      · intro _
        rw [shouldLog, decide_eq_false_iff_not] at hno
        omega
      · intro _
        simp [Logger.log, hno]

/-- Witness for logger_level_filter: WARN threshold, an INFO call is a
no-op and a WARN call stores and prints. -/
theorem logger_level_filter_witness :
    let cfg : LoggerConfig := ⟨.warn, true, true, 10, false, none⟩
    (cfg.level = LogLevel.warn →
      ((LogLevel.info = LogLevel.debug ∨ LogLevel.info = LogLevel.info) →
        Logger.log cfg .info "m" none "i" 5 [] (Except.ok ()) = ⟨[], none, false, none⟩) ∧
      ((LogLevel.info = LogLevel.warn ∨ LogLevel.info = LogLevel.error ∨
          LogLevel.info = LogLevel.critical) →
        (cfg.enableStorage = true →
          (Logger.log cfg .info "m" none "i" 5 [] (Except.ok ())).storage =
            (createLogEntry .info "m" none "i" 5 :: []).take cfg.maxStorageEntries) ∧
        (Logger.log cfg .info "m" none "i" 5 [] (Except.ok ())).consoleOut =
          some (createLogEntry .info "m" none "i" 5))) ∧
    (Logger.log cfg .info "m" none "i" 5 [] (Except.ok ()) = ⟨[], none, false, none⟩ ↔
      LogLevel.info.toNat < cfg.level.toNat) :=
  logger_level_filter ⟨.warn, true, true, 10, false, none⟩ .info "m" none "i" 5 []
    (Except.ok ()) rfl

/-- Claim C9: remote delivery is gated at ERROR and failures are
recovered locally.  A remote fetch is attempted only when the level is
at least ERROR, remote logging is enabled and an endpoint is
configured; below ERROR no fetch is ever attempted; and the outcome of
the fetch changes nothing the caller observes (storage, console entry,
whether an attempt was made) — a failed delivery only yields a local
console warning. -/
theorem remote_delivery_gated (cfg : LoggerConfig) (lvl : LogLevel)
    (msg : String) (ctx : Option String) (idSeed : String) (now : Nat)
    (st : List LogEntry) (fr : Except String Unit) :
    ((Logger.log cfg lvl msg ctx idSeed now st fr).remoteAttempted = true →
      LogLevel.error.toNat ≤ lvl.toNat ∧ cfg.enableRemoteLogging = true ∧
        cfg.remoteEndpoint.isSome = true) ∧
    (lvl.toNat < LogLevel.error.toNat →
      (Logger.log cfg lvl msg ctx idSeed now st fr).remoteAttempted = false) ∧
    (∀ emsg : String,
      (Logger.log cfg lvl msg ctx idSeed now st (Except.error emsg)).storage =
          (Logger.log cfg lvl msg ctx idSeed now st (Except.ok ())).storage ∧
      (Logger.log cfg lvl msg ctx idSeed now st (Except.error emsg)).consoleOut =
          (Logger.log cfg lvl msg ctx idSeed now st (Except.ok ())).consoleOut ∧
      (Logger.log cfg lvl msg ctx idSeed now st (Except.error emsg)).remoteAttempted =
          (Logger.log cfg lvl msg ctx idSeed now st (Except.ok ())).remoteAttempted ∧
      ((Logger.log cfg lvl msg ctx idSeed now st (Except.error emsg)).remoteAttempted = true →
        (Logger.log cfg lvl msg ctx idSeed now st (Except.error emsg)).remoteWarning =
          some (String.append "Failed to send log to remote endpoint: " emsg))) := by
  refine ⟨?_, ?_, ?_⟩
  · intro hatt
    by_cases hyes : shouldLog cfg lvl = true
    · simp only [Logger.log, hyes, if_true] at hatt
      by_cases hlv : LogLevel.error.toNat ≤ lvl.toNat
      · simp only [hlv, if_pos] at hatt
        rcases Bool.and_eq_true_iff.mp hatt with ⟨h1, h2⟩
        exact ⟨hlv, h1, h2⟩
      · simp [hlv] at hatt
    · simp [Logger.log, hyes] at hatt
  · intro hlt
    have hlv : ¬ LogLevel.error.toNat ≤ lvl.toNat := by omega
    by_cases hyes : shouldLog cfg lvl = true
    · simp [Logger.log, hyes, hlv]
    · simp [Logger.log, hyes]
  · intro emsg
    by_cases hyes : shouldLog cfg lvl = true
    · by_cases hlv : LogLevel.error.toNat ≤ lvl.toNat
      · refine ⟨by simp [Logger.log, hyes], by simp [Logger.log, hyes],
          by simp [Logger.log, hyes], ?_⟩
        intro hatt
        simp only [Logger.log, hyes, if_true, hlv, if_pos] at hatt ⊢
        simp only [logToRemote, hatt, if_pos]
      · exact ⟨by simp [Logger.log, hyes], by simp [Logger.log, hyes],
          by simp [Logger.log, hyes], by simp [Logger.log, hyes, hlv]⟩
    · exact ⟨by simp [Logger.log, hyes], by simp [Logger.log, hyes],
        by simp [Logger.log, hyes], by simp [Logger.log, hyes]⟩

/-- Witness for remote_delivery_gated: remote logging enabled with an
endpoint, one CRITICAL call whose delivery fails. -/
theorem remote_delivery_gated_witness :
    let cfg : LoggerConfig := ⟨.info, true, true, 10, true, some "https endpoint"⟩
    ((Logger.log cfg .critical "m" none "i" 5 [] (Except.error "down")).remoteAttempted = true →
      LogLevel.error.toNat ≤ LogLevel.critical.toNat ∧ cfg.enableRemoteLogging = true ∧
        cfg.remoteEndpoint.isSome = true) ∧
    (LogLevel.critical.toNat < LogLevel.error.toNat →
      (Logger.log cfg .critical "m" none "i" 5 [] (Except.error "down")).remoteAttempted = false) ∧
    (∀ emsg : String,
      (Logger.log cfg .critical "m" none "i" 5 [] (Except.error emsg)).storage =
          (Logger.log cfg .critical "m" none "i" 5 [] (Except.ok ())).storage ∧
      (Logger.log cfg .critical "m" none "i" 5 [] (Except.error emsg)).consoleOut =
          (Logger.log cfg .critical "m" none "i" 5 [] (Except.ok ())).consoleOut ∧
      (Logger.log cfg .critical "m" none "i" 5 [] (Except.error emsg)).remoteAttempted =
          (Logger.log cfg .critical "m" none "i" 5 [] (Except.ok ())).remoteAttempted ∧
      ((Logger.log cfg .critical "m" none "i" 5 [] (Except.error emsg)).remoteAttempted = true →
        (Logger.log cfg .critical "m" none "i" 5 [] (Except.error emsg)).remoteWarning =
          some (String.append "Failed to send log to remote endpoint: " emsg))) :=
  remote_delivery_gated ⟨.info, true, true, 10, true, some "https endpoint"⟩ .critical
    "m" none "i" 5 [] (Except.error "down")
